import Mathlib

/-!
Verification of the youtube-caption Go library against its design
specification.  The definitions below are a shallow embedding of the
repository's source files:

* `findCaptionTrack`, `validateVideoID`, `makeRequestWithRetry`,
  `DownloadWithContext` come from the options-based variant of the
  library (`Options`, `CaptionTrack`, `CaptionEvent`, ...).
* `GetSubtitleText`, `GetPlainText`, `GetSRT`, `GetVTT`,
  `formatSRTTime`, `formatVTTTime` come from the formatting file.

Modelling conventions:

* Go `float64` second values are embedded as exact rationals (`ℚ`).
  The extractor's per-segment arithmetic divides integer milliseconds
  by 1000; since `x ↦ x / 1000` is strictly monotone, the running
  maximum is computed over integer milliseconds and divided once at
  span-emission time, which yields exactly the same rational values as
  dividing first.
* Go `time.Duration` values are embedded as natural numbers of
  nanoseconds (the claims only exercise non-negative durations).
* `strings.TrimSpace` is modelled over the ASCII whitespace characters
  (space, tab, newline, carriage return, vertical tab, form feed).
* `sort.Slice` with the comparator `StartTime i < StartTime j` is
  modelled by an insertion sort on the same key; `sort.Slice` is not
  stable, and no claim depends on the order of spans sharing a start
  time, only on the output being sorted.
* `fmt.Sprintf` verbs `%d`, `%02d`, `%03d` are modelled by `Nat.repr`
  and zero-padding (all formatted quantities are non-negative).
-/

/-- `CaptionTrack` as decoded from the player response: `baseUrl`,
`languageCode`, `name.simpleText` and `kind`. -/
structure CaptionTrack where
  baseUrl : String
  languageCode : String
  simpleText : String
  kind : String
deriving DecidableEq

/-- One caption segment: `utf8` text and `tOffsetMs` (the `acAsrConf`
field is decoded but never read by the library). -/
structure CaptionSegment where
  utf8 : String
  tOffsetMs : ℤ
deriving DecidableEq

/-- One caption event: `tStartMs` and its list of segments (`segs`). -/
structure CaptionEvent where
  tStartMs : ℤ
  segments : List CaptionSegment
deriving DecidableEq

/-- The decoded caption payload: the list of events. -/
structure Caption where
  events : List CaptionEvent
deriving DecidableEq

/-- A extracted subtitle span: start/end time in seconds and its text. -/
structure SubtitleText where
  startTime : ℚ
  endTime : ℚ
  text : String
deriving DecidableEq

/-- Caller options: language, kind, per-call timeout (ns), retry budget
factor and user agent. -/
structure Options where
  language : String
  kind : String
  timeout : ℕ
  maxRetries : ℕ
  userAgent : String
deriving DecidableEq

/-- `DefaultOptions`: language "en", kind "asr", 30s timeout,
3 retries, fixed browser user agent. -/
def DefaultOptions : Options :=
  { language := "en", kind := "asr", timeout := 30000000000,
    maxRetries := 3,
    userAgent := "Mozilla/5.0 (Macintosh; Intel Mac OS X 10_15_7) AppleWebKit/605.1.15 (KHTML, like Gecko) Version/15.5 Safari/605.1.15" }

/-- The error values the library can surface, one constructor per
distinct classification appearing in the source. -/
inductive CaptionError where
  | invalidVideoID
  | noCaptionsFound
  | rateLimited
  | serverError (code : ℕ)
  | httpError (code : ℕ)
  | transport
deriving DecidableEq

/-- ASCII whitespace, as trimmed by `strings.TrimSpace`. -/
def isSpaceChar (c : Char) : Bool :=
  c = ' ' || c = '\t' || c = '\n' || c = '\r' || c = '\x0b' || c = '\x0c'

/-- Model of Go `strings.TrimSpace`: drop leading and trailing
whitespace characters. -/
def trimSpace (s : String) : String :=
  String.mk (((s.data.dropWhile isSpaceChar).reverse.dropWhile isSpaceChar).reverse)

/-- `findCaptionTrack` from the source: three tiers evaluated in order.
Tier 1 scans for a track whose language and kind both match and whose
`baseUrl` is non-empty; tier 2 rescans for a matching language with
non-empty `baseUrl`; tier 3 returns the first track of the list when
its `baseUrl` is non-empty; otherwise the selector fails
(`ErrNoCaptionsFound`, embedded as `none`). -/
def findCaptionTrack (tracks : List CaptionTrack) (opts : Options) : Option CaptionTrack :=
  match tracks.find? (fun t => t.languageCode == opts.language && t.kind == opts.kind && t.baseUrl != "") with
  | some t => some t
  | none =>
    match tracks.find? (fun t => t.languageCode == opts.language && t.baseUrl != "") with
    | some t => some t
    | none =>
      match tracks with
      | [] => none
      | t :: _ => if t.baseUrl != "" then some t else none

/-- One iteration of the segment loop in `GetSubtitleText`: a segment
whose text is exactly `"\n"` is skipped; any other segment appends its
text and raises the running end time (kept in integer milliseconds) to
`tStartMs + tOffsetMs` when that is larger. -/
def segStep (tStartMs : ℤ) (acc : String × ℤ) (seg : CaptionSegment) : String × ℤ :=
  if seg.utf8 == "\n" then acc
  else (acc.1 ++ seg.utf8, max acc.2 (tStartMs + seg.tOffsetMs))

/-- The per-event body of `GetSubtitleText`: events without segments
are skipped; the start time is `tStartMs / 1000`; the end time starts
at the start time and is raised by every non-newline segment; the
concatenated text is trimmed and the event dropped when it trims to
empty. -/
def processEvent (e : CaptionEvent) : Option SubtitleText :=
  if e.segments.isEmpty then none
  else
    let r := e.segments.foldl (segStep e.tStartMs) ("", e.tStartMs)
    let t := trimSpace r.1
    if t = "" then none
    else some ⟨(e.tStartMs : ℚ) / 1000, (r.2 : ℚ) / 1000, t⟩

/-- Insertion step for the final sort of `GetSubtitleText`. -/
def insertSpan (a : SubtitleText) : List SubtitleText → List SubtitleText
  | [] => [a]
  | b :: l => if a.startTime ≤ b.startTime then a :: b :: l else b :: insertSpan a l

/-- Model of `sort.Slice(result, ...)` keyed on `StartTime`. -/
def sortSpans : List SubtitleText → List SubtitleText
  | [] => []
  | a :: l => insertSpan a (sortSpans l)

/-- `GetSubtitleText` from the source: process every event, collect
the emitted spans and sort them by start time. -/
def GetSubtitleText (c : Caption) : List SubtitleText :=
  sortSpans (c.events.filterMap processEvent)

/-- `GetPlainText` from the source: append every span's text followed
by a space, then trim the result. -/
def GetPlainText (c : Caption) : String :=
  trimSpace (String.join ((GetSubtitleText c).map (fun sub => sub.text ++ " ")))

/-- Model of Go `time.Duration(seconds * float64(time.Second))` for a
non-negative number of seconds: the whole nanosecond count (fractional
nanoseconds truncated). -/
def goDurationNs (seconds : ℚ) : ℕ :=
  (seconds * 1000000000).num.toNat / (seconds * 1000000000).den

/-- Model of `fmt.Sprintf` zero-padded decimal verbs (`%02d`, `%03d`):
the decimal digits of `n` left-padded with zeros to width `w`. -/
def pad (w : ℕ) (n : ℕ) : String :=
  let s := Nat.repr n
  if s.length < w then String.mk (List.replicate (w - s.length) '0') ++ s else s

/-- `formatSRTTime` from the source: split the duration into whole
hours, minutes within the hour, seconds within the minute and
milliseconds within the second, and print them zero-padded with a
comma before the milliseconds. -/
def formatSRTTime (seconds : ℚ) : String :=
  pad 2 (goDurationNs seconds / 3600000000000) ++ ":" ++
  pad 2 (goDurationNs seconds / 60000000000 % 60) ++ ":" ++
  pad 2 (goDurationNs seconds / 1000000000 % 60) ++ "," ++
  pad 3 (goDurationNs seconds / 1000000 % 1000)

/-- `formatVTTTime` from the source: identical computation to
`formatSRTTime` with a period before the milliseconds. -/
def formatVTTTime (seconds : ℚ) : String :=
  pad 2 (goDurationNs seconds / 3600000000000) ++ ":" ++
  pad 2 (goDurationNs seconds / 60000000000 % 60) ++ ":" ++
  pad 2 (goDurationNs seconds / 1000000000 % 60) ++ "." ++
  pad 3 (goDurationNs seconds / 1000000 % 1000)

/-- `GetSRT` from the source: for each span, an index line (1-based),
a time line, the text and a blank separator line. -/
def GetSRT (c : Caption) : String :=
  String.join (((GetSubtitleText c).enum).map (fun p =>
    Nat.repr (p.1 + 1) ++ "\n" ++
    formatSRTTime p.2.startTime ++ " --> " ++ formatSRTTime p.2.endTime ++ "\n" ++
    p.2.text ++ "\n\n"))

/-- `GetVTT` from the source: the `WEBVTT` header and a blank line,
then for each span a time line, the text and a blank separator line. -/
def GetVTT (c : Caption) : String :=
  "WEBVTT\n\n" ++
  String.join ((GetSubtitleText c).map (fun sub =>
    formatVTTTime sub.startTime ++ " --> " ++ formatVTTTime sub.endTime ++ "\n" ++
    sub.text ++ "\n\n"))

/-- The character class `[a-zA-Z0-9_-]` of the video-id pattern. -/
def isVideoIDChar (c : Char) : Bool :=
  ('a' ≤ c && c ≤ 'z') || ('A' ≤ c && c ≤ 'Z') || ('0' ≤ c && c ≤ '9') || c = '_' || c = '-'

/-- Model of `videoIDRegex.MatchString` for `^[a-zA-Z0-9_-]{11}$`:
exactly 11 characters, all drawn from the class. -/
def videoIDMatch (s : String) : Bool :=
  s.length == 11 && s.data.all isVideoIDChar

/-- `validateVideoID` from the source: reject the empty string, reject
anything the pattern does not match, accept otherwise. -/
def validateVideoID (videoID : String) : Option CaptionError :=
  if videoID = "" then some .invalidVideoID
  else if !(videoIDMatch videoID) then some .invalidVideoID
  else none

/-- The outcome of one HTTP attempt as seen by the retry loop: either
a transport-level failure or a status code. -/
inductive HTTPOutcome where
  | netErr
  | status (code : ℕ)
deriving DecidableEq

/-- The classification performed by the retry operation closure in the
options-based `makeRequestWithRetry`: 200 is success, 429 is
`ErrRateLimited`, 404 is `ErrNoCaptionsFound`, 5xx is a server error,
any other status is a plain HTTP error; every non-`nil` result is
returned to `backoff.Retry` as an ordinary (non-permanent) error. -/
def classifyAttempt : HTTPOutcome → Option CaptionError
  | .netErr => some .transport
  | .status code =>
    if code = 200 then none
    else if code = 429 then some .rateLimited
    else if code = 404 then some .noCaptionsFound
    else if 500 ≤ code then some (.serverError code)
    else some (.httpError code)

/-- Backoff state of `backoff.ExponentialBackOff`: the current nominal
interval and the elapsed time, both in nanoseconds.  The randomization
of each interval is modelled at its nominal value, and the elapsed
clock advances by the slept intervals (attempts are idealized as
instantaneous). -/
structure BackoffState where
  currentInterval : ℕ
  elapsed : ℕ
deriving DecidableEq

/-- The starting state after `backoff.NewExponentialBackOff` and
`Reset`: a 500ms initial interval and zero elapsed time. -/
def initialBackoff : BackoffState := ⟨500000000, 0⟩

/-- `incrementCurrentInterval`: cap at the 60s maximum interval, else
multiply by 1.5 (`time.Duration` truncation of the float product, which
on this range is floor division by 2 of three times the interval). -/
def incInterval (i : ℕ) : ℕ :=
  if 40000000000 ≤ i then 60000000000 else i * 3 / 2

/-- `ExponentialBackOff.NextBackOff`: grow the interval, and stop when
the elapsed time plus the pending interval would exceed the
`MaxElapsedTime` budget; otherwise hand back the interval to sleep and
the advanced state. -/
def nextBackOff (maxElapsed : ℕ) (st : BackoffState) : Option (ℕ × BackoffState) :=
  if maxElapsed ≠ 0 ∧ maxElapsed < st.elapsed + st.currentInterval then none
  else some (st.currentInterval, ⟨incInterval st.currentInterval, st.elapsed + st.currentInterval⟩)

/-- The `backoff.Retry` loop around the attempt classification: attempt
`n` is issued, a `nil` classification ends the loop with success, and
any error asks the policy for the next delay, stopping with that error
when the budget is exhausted.  `fuel` is an upper bound on the number
of iterations examined; every run stated below finishes well within
it.  Returns the final classification (`none` for success) and the
number of attempts issued. -/
def retryRun (maxElapsed : ℕ) (responses : ℕ → HTTPOutcome) :
    ℕ → ℕ → BackoffState → Option CaptionError × ℕ
  | 0, n, _ => (classifyAttempt (responses n), n + 1)
  | fuel + 1, n, st =>
    match classifyAttempt (responses n) with
    | none => (none, n + 1)
    | some e =>
      match nextBackOff maxElapsed st with
      | none => (some e, n + 1)
      | some (_, st1) => retryRun maxElapsed responses fuel (n + 1) st1

/-- `makeRequestWithRetry` from the options-based source: run the
retry loop with `MaxElapsedTime = maxRetries * 10s`. -/
def makeRequestWithRetry (maxRetries : ℕ) (responses : ℕ → HTTPOutcome) :
    Option CaptionError × ℕ :=
  retryRun (maxRetries * 10000000000) responses 1000 0 initialBackoff

/-- `DownloadWithContext` from the source: validate the video id and
only then run the network pipeline (metadata fetch, track selection and
payload fetch), which is abstracted as the `network` parameter. -/
def DownloadWithContext (network : String → Options → Except CaptionError Caption)
    (videoID : String) (opts : Options) : Except CaptionError Caption :=
  match validateVideoID videoID with
  | some e => .error e
  | none => network videoID opts

/-- The spec's tier-1 predicate: language and kind match and the base
url is non-empty. -/
def tier1 (opts : Options) (t : CaptionTrack) : Prop :=
  t.languageCode = opts.language ∧ t.kind = opts.kind ∧ t.baseUrl ≠ ""

instance (opts : Options) (t : CaptionTrack) : Decidable (tier1 opts t) := by
  unfold tier1; infer_instance

/-- The spec's tier-2 predicate: language matches and the base url is
non-empty. -/
def tier2 (opts : Options) (t : CaptionTrack) : Prop :=
  t.languageCode = opts.language ∧ t.baseUrl ≠ ""

instance (opts : Options) (t : CaptionTrack) : Decidable (tier2 opts t) := by
  unfold tier2; infer_instance

/-- The span end time as worded by the specification (claim C3): the
maximum over the non-newline segments of `(tStartMs + tOffsetMs) / 1000`,
falling back to the start time when no such segment exists. -/
def specSpanEnd (e : CaptionEvent) : ℚ :=
  match ((e.segments.filter (fun s => !(s.utf8 == "\n"))).map
      (fun s => ((e.tStartMs + s.tOffsetMs : ℤ) : ℚ) / 1000)).max? with
  | some m => m
  | none => (e.tStartMs : ℚ) / 1000

/-- The in-order concatenation of the non-newline segment texts, as
worded by the specification. -/
def specSpanText (e : CaptionEvent) : String :=
  (e.segments.filter (fun s => !(s.utf8 == "\n"))).foldl (fun acc s => acc ++ s.utf8) ""

/-- The comparator of the final sort: ordered by start time. -/
def spanLE (a b : SubtitleText) : Prop := a.startTime ≤ b.startTime

instance (a b : SubtitleText) : Decidable (spanLE a b) := by
  unfold spanLE; infer_instance

lemma string_mk_data (l : List Char) : (String.mk l).data = l := rfl

lemma mem_insertSpan {x a : SubtitleText} {l : List SubtitleText} :
    x ∈ insertSpan a l ↔ x = a ∨ x ∈ l := by
  induction l with
  | nil => simp [insertSpan]
  | cons b l ih =>
    rw [insertSpan]
    by_cases h : a.startTime ≤ b.startTime
    · rw [if_pos h, List.mem_cons, List.mem_cons]
    · rw [if_neg h, List.mem_cons, ih, List.mem_cons]
      tauto

lemma pairwise_insertSpan {a : SubtitleText} {l : List SubtitleText}
    (hl : l.Pairwise spanLE) : (insertSpan a l).Pairwise spanLE := by
  induction l with
  | nil => simp [insertSpan]
  | cons b l ih =>
    rw [List.pairwise_cons] at hl
    rw [insertSpan]
    by_cases h : a.startTime ≤ b.startTime
    · rw [if_pos h, List.pairwise_cons]
      refine ⟨?_, List.pairwise_cons.2 hl⟩
      intro x hx
      rcases List.mem_cons.1 hx with rfl | hx
      · exact h
      · exact le_trans h (hl.1 x hx)
    · rw [if_neg h, List.pairwise_cons]
      refine ⟨?_, ih hl.2⟩
      intro x hx
      rcases mem_insertSpan.1 hx with rfl | hx
      · exact le_of_not_le h
      · exact hl.1 x hx

lemma pairwise_sortSpans (l : List SubtitleText) : (sortSpans l).Pairwise spanLE := by
  induction l with
  | nil => simp [sortSpans]
  | cons a l ih => exact pairwise_insertSpan ih

lemma mem_sortSpans {x : SubtitleText} {l : List SubtitleText} :
    x ∈ sortSpans l ↔ x ∈ l := by
  induction l with
  | nil => simp [sortSpans]
  | cons a l ih =>
    rw [sortSpans, mem_insertSpan, List.mem_cons, ih]

lemma str_append_assoc (a b c : String) : a ++ b ++ c = a ++ (b ++ c) :=
  String.ext (by simp [String.data_append])

lemma str_append_nil (a : String) : a ++ "" = a :=
  String.ext (by simp [String.data_append, show ("" : String).data = [] from rfl])

lemma str_nil_append (a : String) : "" ++ a = a :=
  String.ext (by simp [String.data_append, show ("" : String).data = [] from rfl])

lemma foldl_utf8_append (l : List CaptionSegment) (s t : String) :
    l.foldl (fun acc sg => acc ++ sg.utf8) (s ++ t) =
      s ++ l.foldl (fun acc sg => acc ++ sg.utf8) t := by
  induction l generalizing t with
  | nil => simp
  | cons sg l ih => simpa [str_append_assoc] using ih (t ++ sg.utf8)

lemma foldl_utf8_split (l : List CaptionSegment) (x : String) :
    l.foldl (fun acc sg => acc ++ sg.utf8) x =
      x ++ l.foldl (fun acc sg => acc ++ sg.utf8) "" := by
  have h := foldl_utf8_append l x ""
  rw [str_append_nil] at h
  exact h

/-- The segment fold splits into the concatenation of non-newline texts
and the running maximum of the non-newline end offsets. -/
lemma foldl_segStep (st : ℤ) (l : List CaptionSegment) (s : String) (m : ℤ) :
    l.foldl (segStep st) (s, m) =
      (s ++ (l.filter (fun sg => !(sg.utf8 == "\n"))).foldl (fun acc sg => acc ++ sg.utf8) "",
       (l.filter (fun sg => !(sg.utf8 == "\n"))).foldl (fun a sg => max a (st + sg.tOffsetMs)) m) := by
  induction l generalizing s m with
  | nil => simp [str_append_nil]
  | cons sg l ih =>
    rw [List.foldl_cons, List.filter_cons]
    by_cases h : sg.utf8 == "\n"
    · have hseg : segStep st (s, m) sg = (s, m) := by simp [segStep, h]
      have hcond : (!(sg.utf8 == "\n")) = false := by rw [h]; rfl
      rw [hseg, hcond, if_neg (by simp)]
      exact ih s m
    · have hb : (sg.utf8 == "\n") = false := by
        cases hb2 : (sg.utf8 == "\n") with
        | true => exact absurd hb2 h
        | false => rfl
      have hseg : segStep st (s, m) sg = (s ++ sg.utf8, max m (st + sg.tOffsetMs)) := by
        simp [segStep, hb]
      have hcond : (!(sg.utf8 == "\n")) = true := by rw [hb]; rfl
      rw [hseg, hcond, if_pos rfl, ih (s ++ sg.utf8) (max m (st + sg.tOffsetMs)),
        List.foldl_cons, str_nil_append, foldl_utf8_split _ sg.utf8, str_append_assoc,
        List.foldl_cons]

lemma foldl_max_eq (L : List ℤ) (m : ℤ) :
    L.foldl max m = L.max?.elim m (max m) := by
  cases L with
  | nil => rfl
  | cons a L =>
    show (a :: L).foldl max m = max m (L.foldl max a)
    rw [List.foldl_cons, List.foldl_assoc]

/-- Mapping the monotone function `z ↦ (z : ℚ) / 1000` commutes with
the list maximum. -/
lemma max?_map_div (L : List ℤ) :
    (L.map (fun z : ℤ => ((z : ℚ) / 1000))).max? =
      L.max?.map (fun z : ℤ => ((z : ℚ) / 1000)) := by
  cases L with
  | nil => rfl
  | cons a L =>
    show some _ = some _
    rw [Option.some.injEq, List.foldl_map]
    induction L generalizing a with
    | nil => rfl
    | cons b L ih =>
      rw [List.foldl_cons, List.foldl_cons]
      rw [show (max ((a : ℚ) / 1000) ((b : ℚ) / 1000)) = ((max a b : ℤ) : ℚ) / 1000 from by
        rw [max_div_div_right (by norm_num : (0:ℚ) ≤ 1000), Int.cast_max]]
      exact ih (max a b)

lemma dropWhile_self_idem (p : Char → Bool) (l : List Char) :
    List.dropWhile p (List.dropWhile p l) = List.dropWhile p l := by
  have h := List.head?_dropWhile_not p l
  cases hd : List.dropWhile p l with
  | nil => simp
  | cons a t =>
    rw [hd] at h
    simp only [List.head?_cons] at h
    rw [List.dropWhile_cons, h]
    simp

/-- The head of a trimmed string is not whitespace. -/
lemma trim_head_not (s : String) {c : Char} (h : (trimSpace s).data.head? = some c) :
    isSpaceChar c = false := by
  simp only [trimSpace, string_mk_data] at h
  rw [List.head?_reverse] at h
  obtain ⟨pre, hpre⟩ :=
    List.dropWhile_suffix (l := (s.data.dropWhile isSpaceChar).reverse) isSpaceChar
  have h1 : (s.data.dropWhile isSpaceChar).reverse.getLast? = some c := by
    rw [← hpre, List.getLast?_append, h]
    rfl
  rw [List.getLast?_reverse] at h1
  have h2 := List.head?_dropWhile_not isSpaceChar s.data
  rw [h1] at h2
  exact h2

/-- The last character of a trimmed string is not whitespace. -/
lemma trim_last_not (s : String) {c : Char} (h : (trimSpace s).data.getLast? = some c) :
    isSpaceChar c = false := by
  simp only [trimSpace, string_mk_data] at h
  rw [List.getLast?_reverse] at h
  have h2 := List.head?_dropWhile_not isSpaceChar (s.data.dropWhile isSpaceChar).reverse
  rw [h] at h2
  exact h2

/-- `strings.TrimSpace` is idempotent: a trimmed string trims to
itself. -/
lemma trimSpace_idem (s : String) : trimSpace (trimSpace s) = trimSpace s := by
  apply String.ext
  have hhead : (trimSpace s).data.dropWhile isSpaceChar = (trimSpace s).data := by
    cases hd : (trimSpace s).data with
    | nil => simp
    | cons a t =>
      have ha := trim_head_not s (c := a) (by rw [hd]; rfl)
      rw [List.dropWhile_cons, ha]
      simp
  have hlast : (trimSpace s).data.reverse.dropWhile isSpaceChar = (trimSpace s).data.reverse := by
    cases hd : (trimSpace s).data.reverse with
    | nil => simp
    | cons a t =>
      have ha : (trimSpace s).data.getLast? = some a := by
        rw [← List.head?_reverse, hd]; rfl
      have hb := trim_last_not s ha
      rw [List.dropWhile_cons, hb]
      simp
  show (((trimSpace s).data.dropWhile isSpaceChar).reverse.dropWhile isSpaceChar).reverse =
    (trimSpace s).data
  rw [hhead, hlast, List.reverse_reverse]

/-- Characterization of the per-event extraction against the spec-side
text and end-time formulas: the event is dropped exactly when the
trimmed concatenation is empty, and the emitted end time is the
maximum of the start time and the spec's per-segment maximum. -/
lemma processEvent_eq (e : CaptionEvent) (h : e.segments ≠ []) :
    processEvent e =
      if trimSpace (specSpanText e) = "" then none
      else some ⟨(e.tStartMs : ℚ) / 1000,
                 max ((e.tStartMs : ℚ) / 1000) (specSpanEnd e),
                 trimSpace (specSpanText e)⟩ := by
  have hne : e.segments.isEmpty = false := by
    cases hs : e.segments with
    | nil => exact absurd hs h
    | cons a t => rfl
  have hfold := foldl_segStep e.tStartMs e.segments "" e.tStartMs
  have hend : (((e.segments.filter (fun sg => !(sg.utf8 == "\n"))).foldl
      (fun a sg => max a (e.tStartMs + sg.tOffsetMs)) e.tStartMs : ℤ) : ℚ) / 1000 =
      max ((e.tStartMs : ℚ) / 1000) (specSpanEnd e) := by
    rw [show (e.segments.filter (fun sg => !(sg.utf8 == "\n"))).foldl
        (fun a sg => max a (e.tStartMs + sg.tOffsetMs)) e.tStartMs =
        ((e.segments.filter (fun sg => !(sg.utf8 == "\n"))).map
          (fun sg => e.tStartMs + sg.tOffsetMs)).foldl max e.tStartMs from
      by rw [List.foldl_map]]
    rw [foldl_max_eq]
    unfold specSpanEnd
    rw [show ((e.segments.filter (fun sg => !(sg.utf8 == "\n"))).map
        (fun s => ((e.tStartMs + s.tOffsetMs : ℤ) : ℚ) / 1000)) =
        (((e.segments.filter (fun sg => !(sg.utf8 == "\n"))).map
          (fun sg => e.tStartMs + sg.tOffsetMs)).map (fun z : ℤ => ((z : ℚ) / 1000))) from by
      rw [List.map_map]; rfl]
    rw [max?_map_div]
    cases hm : ((e.segments.filter (fun sg => !(sg.utf8 == "\n"))).map
        (fun sg => e.tStartMs + sg.tOffsetMs)).max? with
    | none => simp
    | some M =>
      simp only [Option.elim]
      rw [Int.cast_max, ← max_div_div_right (by norm_num : (0:ℚ) ≤ 1000)]
      rfl
  unfold processEvent
  rw [hne]
  rw [if_neg (by simp)]
  show (if trimSpace ((e.segments.foldl (segStep e.tStartMs) ("", e.tStartMs)).1) = "" then none
        else some (⟨(e.tStartMs : ℚ) / 1000,
          (((e.segments.foldl (segStep e.tStartMs) ("", e.tStartMs)).2 : ℤ) : ℚ) / 1000,
          trimSpace ((e.segments.foldl (segStep e.tStartMs) ("", e.tStartMs)).1)⟩ : SubtitleText)) = _
  rw [hfold]
  show (if trimSpace ("" ++ _) = "" then none else some _) = _
  rw [str_nil_append, hend]
  rfl

lemma digitChar_isDigit : ∀ m : ℕ, m < 10 → (Nat.digitChar m).isDigit = true := by decide

lemma toDigitsCore_isDigit : ∀ (fuel n : ℕ) (ds : List Char),
    (∀ c ∈ ds, c.isDigit = true) → ∀ c ∈ Nat.toDigitsCore 10 fuel n ds, c.isDigit = true := by
  intro fuel
  induction fuel with
  | zero =>
    intro n ds hds c hc
    simp only [Nat.toDigitsCore] at hc
    exact hds c hc
  | succ fuel ih =>
    intro n ds hds c hc
    simp only [Nat.toDigitsCore] at hc
    have hd : ∀ x ∈ Nat.digitChar (n % 10) :: ds, x.isDigit = true := by
      intro x hx
      rcases List.mem_cons.1 hx with rfl | hx
      · exact digitChar_isDigit _ (Nat.mod_lt _ (by norm_num))
      · exact hds x hx
    by_cases h0 : n / 10 = 0
    · rw [if_pos h0] at hc
      exact hd c hc
    · rw [if_neg h0] at hc
      exact ih _ _ hd c hc

/-- Decimal representations consist only of digit characters. -/
lemma repr_isDigit (n : ℕ) : ∀ c ∈ (Nat.repr n).data, c.isDigit = true := by
  intro c hc
  have hdata : (Nat.repr n).data = Nat.toDigits 10 n := rfl
  rw [hdata, Nat.toDigits] at hc
  exact toDigitsCore_isDigit _ _ [] (by intro x hx; cases hx) c hc

/-- Zero-padded decimal fields consist only of digit characters. -/
lemma pad_isDigit (w n : ℕ) : ∀ c ∈ (pad w n).data, c.isDigit = true := by
  intro c hc
  simp only [pad] at hc
  by_cases hlen : (Nat.repr n).length < w
  · rw [if_pos hlen] at hc
    rw [String.data_append, string_mk_data] at hc
    rcases List.mem_append.1 hc with hc | hc
    · rw [List.eq_of_mem_replicate hc]
      decide
    · exact repr_isDigit n c hc
  · rw [if_neg hlen] at hc
    exact repr_isDigit n c hc

/-- The substitution performed when turning an SRT time stamp into a
VTT one: the comma becomes a period, all else is unchanged. -/
def swapComma (c : Char) : Char := if c = ',' then '.' else c

lemma map_swapComma_digits (l : List Char) (h : ∀ c ∈ l, c.isDigit = true) :
    l.map swapComma = l := by
  induction l with
  | nil => rfl
  | cons a t ih =>
    rw [List.map_cons]
    have ha : a.isDigit = true := h a (List.mem_cons_self a t)
    have hsw : swapComma a = a := by
      unfold swapComma
      rw [if_neg]
      intro hEq
      rw [hEq] at ha
      exact absurd ha (by decide)
    rw [hsw, ih (fun c hc => h c (List.mem_cons_of_mem a hc))]

lemma count_comma_digits (l : List Char) (h : ∀ c ∈ l, c.isDigit = true) :
    l.count ',' = 0 := by
  rw [List.count_eq_zero]
  intro hm
  exact absurd (h ',' hm) (by decide)

lemma tier1_find (opts : Options) (tracks : List CaptionTrack) :
    tracks.find? (fun t => decide (tier1 opts t)) =
      tracks.find? (fun t =>
        t.languageCode == opts.language && t.kind == opts.kind && t.baseUrl != "") := by
  congr 1
  funext t
  rw [Bool.eq_iff_iff]
  simp [tier1, Bool.and_assoc]

lemma tier2_find (opts : Options) (tracks : List CaptionTrack) :
    tracks.find? (fun t => decide (tier2 opts t)) =
      tracks.find? (fun t => t.languageCode == opts.language && t.baseUrl != "") := by
  congr 1
  funext t
  rw [Bool.eq_iff_iff]
  simp [tier2]

/-- C1 counterexample: with the track list `[{fr, baseUrl: ""}, {de, baseUrl: "u"}]`
and request `(en, asr)`, no track matches tier 1 or tier 2 and a track
with non-empty `baseUrl` exists, yet the selector returns `NotFound`
instead of that track: tier 3 only ever inspects the first track. -/
theorem c1_counterexample :
    (∀ t ∈ [CaptionTrack.mk "" "fr" "" "", CaptionTrack.mk "u" "de" "" ""],
        ¬ tier1 DefaultOptions t) ∧
    (∀ t ∈ [CaptionTrack.mk "" "fr" "" "", CaptionTrack.mk "u" "de" "" ""],
        ¬ tier2 DefaultOptions t) ∧
    (∃ t ∈ [CaptionTrack.mk "" "fr" "" "", CaptionTrack.mk "u" "de" "" ""],
        t.baseUrl ≠ "") ∧
    findCaptionTrack [CaptionTrack.mk "" "fr" "" "", CaptionTrack.mk "u" "de" "" ""]
      DefaultOptions = none := by
  refine ⟨by decide, by decide, ⟨CaptionTrack.mk "u" "de" "" "", by decide⟩, by decide⟩

/-- C1 (amended): when no track matches tier 1 and none matches tier 2,
the selector returns the first track of the list when that track's
`baseUrl` is non-empty, and `NotFound` otherwise; tracks after the
first are not consulted at tier 3. -/
theorem c1_tier3_first_track_only (tracks : List CaptionTrack) (opts : Options)
    (h1 : ∀ t ∈ tracks, ¬ tier1 opts t)
    (h2 : ∀ t ∈ tracks, ¬ tier2 opts t) :
    findCaptionTrack tracks opts =
      match tracks with
      | [] => none
      | t :: _ => if t.baseUrl ≠ "" then some t else none := by
  have hf1 : tracks.find? (fun t =>
      t.languageCode == opts.language && t.kind == opts.kind && t.baseUrl != "") = none := by
    rw [List.find?_eq_none]
    intro t ht hc
    simp only [Bool.and_eq_true, beq_iff_eq, bne_iff_ne] at hc
    exact h1 t ht ⟨hc.1.1, hc.1.2, hc.2⟩
  have hf2 : tracks.find? (fun t => t.languageCode == opts.language && t.baseUrl != "") = none := by
    rw [List.find?_eq_none]
    intro t ht hc
    simp only [Bool.and_eq_true, beq_iff_eq, bne_iff_ne] at hc
    exact h2 t ht ⟨hc.1, hc.2⟩
  unfold findCaptionTrack
  rw [hf1, hf2]
  cases tracks with
  | nil => rfl
  | cons t rest =>
    show (if (t.baseUrl != "") = true then some t else none) =
      if t.baseUrl ≠ "" then some t else none
    by_cases hb : t.baseUrl = ""
    · have hbb : (t.baseUrl != "") = false := by simp [hb]
      rw [hbb]
      rw [if_neg (by simp), if_neg (by simp [hb])]
    · have hbb : (t.baseUrl != "") = true := by simp [hb]
      rw [hbb, if_pos rfl, if_pos hb]

/-- Witness for C1 (amended) at a concrete track list whose only track
fails both tiers and has an empty `baseUrl`. -/
theorem c1_tier3_witness :
    findCaptionTrack [CaptionTrack.mk "" "fr" "" ""] DefaultOptions = none := by
  have h := c1_tier3_first_track_only [CaptionTrack.mk "" "fr" "" ""] DefaultOptions
    (by decide) (by decide)
  rw [h]
  decide

/-- C2: the selector returns the first track matching tier 1 when one
exists, and otherwise the first track matching tier 2 when one exists;
in the scenario `[{es,asr},{en,manual},{en,asr}]` with request
`(en, asr)` it selects the third track, and for `[{en,manual}]` with
request `(en, asr)` it selects that track via tier 2. -/
theorem c2_selection_tiers :
    (∀ (tracks : List CaptionTrack) (opts : Options) (r : CaptionTrack),
        tracks.find? (fun t => decide (tier1 opts t)) = some r →
        findCaptionTrack tracks opts = some r) ∧
    (∀ (tracks : List CaptionTrack) (opts : Options) (r : CaptionTrack),
        tracks.find? (fun t => decide (tier1 opts t)) = none →
        tracks.find? (fun t => decide (tier2 opts t)) = some r →
        findCaptionTrack tracks opts = some r) ∧
    findCaptionTrack
      [CaptionTrack.mk "u1" "es" "" "asr", CaptionTrack.mk "u2" "en" "" "manual",
       CaptionTrack.mk "u3" "en" "" "asr"] DefaultOptions =
      some (CaptionTrack.mk "u3" "en" "" "asr") ∧
    findCaptionTrack [CaptionTrack.mk "u1" "en" "" "manual"] DefaultOptions =
      some (CaptionTrack.mk "u1" "en" "" "manual") := by
  refine ⟨?_, ?_, by decide, by decide⟩
  · intro tracks opts r hr
    rw [tier1_find] at hr
    unfold findCaptionTrack
    rw [hr]
  · intro tracks opts r h1 hr
    rw [tier1_find] at h1
    rw [tier2_find] at hr
    unfold findCaptionTrack
    rw [h1, hr]

/-- Witness for C2 at a concrete single-track list matching tier 1. -/
theorem c2_witness :
    findCaptionTrack [CaptionTrack.mk "u" "en" "" "asr"] DefaultOptions =
      some (CaptionTrack.mk "u" "en" "" "asr") :=
  c2_selection_tiers.1 [CaptionTrack.mk "u" "en" "" "asr"] DefaultOptions
    (CaptionTrack.mk "u" "en" "" "asr") (by decide)

/-- C3 counterexample: for the event `{tStartMs:1000, segs:[{utf8:"a",
tOffsetMs:-500}]}` the claim's span end (the maximum over non-newline
segments of `(tStartMs + tOffsetMs) / 1000`) is `0.5`, but the code
emits the span with end time `1.0`: the running end time never drops
below the start time. -/
theorem c3_counterexample :
    GetSubtitleText ⟨[⟨1000, [⟨"a", -500⟩]⟩]⟩ = [⟨1, 1, "a"⟩] ∧
    specSpanEnd ⟨1000, [⟨"a", -500⟩]⟩ = 1/2 ∧ ((1 : ℚ) ≠ 1/2) := by
  refine ⟨?_, ?_, by norm_num⟩
  · have h1 : GetSubtitleText ⟨[⟨1000, [⟨"a", -500⟩]⟩]⟩ =
        [⟨((1000 : ℤ) : ℚ)/1000, ((1000 : ℤ) : ℚ)/1000, "a"⟩] := rfl
    rw [h1]
    norm_num
  · have h1 : specSpanEnd ⟨1000, [⟨"a", -500⟩]⟩ = ((500 : ℤ) : ℚ)/1000 := rfl
    rw [h1]
    norm_num

/-- C3 (amended): every event with at least one segment yields
`spanStart = tStartMs / 1000`, text equal to the trimmed in-order
concatenation of the non-newline segment texts (the event being
dropped when that trims to empty), and `spanEnd` equal to the maximum
of `spanStart` and the per-segment maximum of
`(tStartMs + tOffsetMs) / 1000` over non-newline segments (so the end
time never drops below the start time); segment-less events yield no
span; the `Hello world` scenario yields exactly
`{start: 1.0, end: 1.5, text: "Hello world"}` and a newline-only event
yields no span. -/
theorem c3_extraction :
    (∀ st : ℤ, processEvent ⟨st, []⟩ = none) ∧
    (∀ e : CaptionEvent, e.segments ≠ [] →
        processEvent e =
          if trimSpace (specSpanText e) = "" then none
          else some ⟨(e.tStartMs : ℚ) / 1000,
                     max ((e.tStartMs : ℚ) / 1000) (specSpanEnd e),
                     trimSpace (specSpanText e)⟩) ∧
    GetSubtitleText ⟨[⟨1000, [⟨"Hello", 0⟩, ⟨" world", 500⟩]⟩]⟩ =
      [⟨1, 3/2, "Hello world"⟩] ∧
    GetSubtitleText ⟨[⟨0, [⟨"\n", 0⟩]⟩]⟩ = [] := by
  refine ⟨fun st => rfl, fun e he => processEvent_eq e he, ?_, rfl⟩
  have h1 : GetSubtitleText ⟨[⟨1000, [⟨"Hello", 0⟩, ⟨" world", 500⟩]⟩]⟩ =
      [⟨((1000 : ℤ) : ℚ)/1000, ((1500 : ℤ) : ℚ)/1000, "Hello world"⟩] := rfl
  rw [h1]
  norm_num

/-- Witness for C3 (amended) at a concrete one-segment event. -/
theorem c3_witness :
    processEvent ⟨2000, [⟨"x", 100⟩]⟩ =
      if trimSpace (specSpanText ⟨2000, [⟨"x", 100⟩]⟩) = "" then none
      else some ⟨((2000 : ℤ) : ℚ) / 1000,
                 max (((2000 : ℤ) : ℚ) / 1000) (specSpanEnd ⟨2000, [⟨"x", 100⟩]⟩),
                 trimSpace (specSpanText ⟨2000, [⟨"x", 100⟩]⟩)⟩ :=
  c3_extraction.2.1 ⟨2000, [⟨"x", 100⟩]⟩ (by decide)

/-- C4: for every caption (negative segment offsets included) the
extracted span list is sorted non-decreasing by start time, and every
span has non-empty text that is its own trim and an end time at least
its start time. -/
theorem c4_invariants (c : Caption) :
    (GetSubtitleText c).Pairwise spanLE ∧
    ∀ s ∈ GetSubtitleText c,
      s.text ≠ "" ∧ trimSpace s.text = s.text ∧ s.startTime ≤ s.endTime := by
  constructor
  · exact pairwise_sortSpans _
  · intro s hs
    unfold GetSubtitleText at hs
    rw [mem_sortSpans] at hs
    obtain ⟨e, he, hpe⟩ := List.mem_filterMap.1 hs
    have hne : e.segments ≠ [] := by
      intro h0
      have hnone : processEvent e = none := by
        unfold processEvent
        rw [h0]
        rfl
      rw [hnone] at hpe
      exact Option.noConfusion hpe
    rw [processEvent_eq e hne] at hpe
    by_cases ht : trimSpace (specSpanText e) = ""
    · rw [if_pos ht] at hpe
      exact Option.noConfusion hpe
    · rw [if_neg ht] at hpe
      have hs2 : s = ⟨(e.tStartMs : ℚ) / 1000,
          max ((e.tStartMs : ℚ) / 1000) (specSpanEnd e),
          trimSpace (specSpanText e)⟩ := (Option.some.inj hpe).symm
      refine ⟨?_, ?_, ?_⟩
      · rw [hs2]
        exact ht
      · rw [hs2]
        exact trimSpace_idem _
      · rw [hs2]
        exact le_max_left _ _

/-- Witness for C4 at a concrete one-event caption and its extracted
span. -/
theorem c4_witness :
    (GetSubtitleText ⟨[⟨0, [⟨"hi", 0⟩]⟩]⟩).Pairwise spanLE ∧
    ((⟨0, 0, "hi"⟩ : SubtitleText).text ≠ "" ∧
      trimSpace (⟨0, 0, "hi"⟩ : SubtitleText).text = (⟨0, 0, "hi"⟩ : SubtitleText).text ∧
      (⟨0, 0, "hi"⟩ : SubtitleText).startTime ≤ (⟨0, 0, "hi"⟩ : SubtitleText).endTime) := by
  have h := c4_invariants ⟨[⟨0, [⟨"hi", 0⟩]⟩]⟩
  have hmem : (⟨0, 0, "hi"⟩ : SubtitleText) ∈ GetSubtitleText ⟨[⟨0, [⟨"hi", 0⟩]⟩]⟩ := by
    have h1 : GetSubtitleText ⟨[⟨0, [⟨"hi", 0⟩]⟩]⟩ =
        [⟨((0 : ℤ) : ℚ)/1000, ((0 : ℤ) : ℚ)/1000, "hi"⟩] := rfl
    rw [h1]
    norm_num
  exact ⟨h.1, h.2 _ hmem⟩

/-- C5 (code behaviour at the failing input): a request answered 404 on
every attempt is retried until the backoff budget elapses — 9 attempts
under the default budget — before `ErrNoCaptionsFound` is returned,
and a request answered 403 on every attempt is likewise retried 9
times; neither status is terminal after the first response, because
the retry operation returns plain errors that `backoff.Retry` treats
as retryable. -/
theorem c5_4xx_retried :
    makeRequestWithRetry 3 (fun _ => .status 404) = (some .noCaptionsFound, 9) ∧
    makeRequestWithRetry 3 (fun _ => .status 403) = (some (.httpError 403), 9) := by
  exact ⟨by decide, by decide⟩

/-- C6: a 5xx or 429 answer within budget is retried after the current
backoff interval, the interval growing by the 1.5 multiplier (capped at
60s); the loop is bounded by the elapsed-time budget, not an attempt
count.  The 503,503,200 sequence succeeds with 3 attempts, and an
all-429 sequence exhausts the 30s budget and fails with the
rate-limited classification as the last classified error. -/
theorem c6_retry_backoff :
    makeRequestWithRetry 3 (fun n => .status (if n < 2 then 503 else 200)) = (none, 3) ∧
    makeRequestWithRetry 3 (fun _ => .status 429) = (some .rateLimited, 9) ∧
    (∀ (responses : ℕ → HTTPOutcome) (fuel n : ℕ) (st : BackoffState) (code : ℕ),
        responses n = .status code → (500 ≤ code ∨ code = 429) →
        st.elapsed + st.currentInterval ≤ 30000000000 →
        retryRun 30000000000 responses (fuel + 1) n st =
          retryRun 30000000000 responses fuel (n + 1)
            ⟨incInterval st.currentInterval, st.elapsed + st.currentInterval⟩) := by
  refine ⟨by decide, by decide, ?_⟩
  intro responses fuel n st code hresp hcode hbudget
  have hclass : ∃ e, classifyAttempt (responses n) = some e := by
    rw [hresp]
    rcases hcode with h5 | h429
    · refine ⟨.serverError code, ?_⟩
      show (if code = 200 then none
            else if code = 429 then some CaptionError.rateLimited
            else if code = 404 then some CaptionError.noCaptionsFound
            else if 500 ≤ code then some (CaptionError.serverError code)
            else some (CaptionError.httpError code)) = some (CaptionError.serverError code)
      rw [if_neg (by omega), if_neg (by omega), if_neg (by omega), if_pos h5]
    · subst h429
      exact ⟨.rateLimited, rfl⟩
  obtain ⟨e, he⟩ := hclass
  have hnb : nextBackOff 30000000000 st =
      some (st.currentInterval, ⟨incInterval st.currentInterval,
        st.elapsed + st.currentInterval⟩) := by
    unfold nextBackOff
    rw [if_neg]
    rintro ⟨-, hlt⟩
    omega
  rw [show retryRun 30000000000 responses (fuel + 1) n st =
      (match classifyAttempt (responses n) with
       | none => (none, n + 1)
       | some e =>
         match nextBackOff 30000000000 st with
         | none => (some e, n + 1)
         | some (_, st1) => retryRun 30000000000 responses fuel (n + 1) st1) from rfl]
  rw [he, hnb]

/-- Witness for C6's retry step at the starting backoff state and an
all-503 response sequence. -/
theorem c6_witness :
    retryRun 30000000000 (fun _ => .status 503) 1 0 initialBackoff =
      retryRun 30000000000 (fun _ => .status 503) 0 1
        ⟨incInterval initialBackoff.currentInterval,
         initialBackoff.elapsed + initialBackoff.currentInterval⟩ :=
  c6_retry_backoff.2.2 (fun _ => .status 503) 0 0 initialBackoff 503 rfl
    (Or.inl (by norm_num)) (by decide)

/-- C7: every string of length other than 11 or containing a character
outside `[A-Za-z0-9_-]` is rejected with `InvalidInput` by the download
entry point before the network pipeline is consulted (the result does
not depend on the network), and every 11-character string drawn from
the class passes validation. -/
theorem c7_video_id_validation :
    (∀ s : String, (s.length ≠ 11 ∨ ∃ c ∈ s.data, isVideoIDChar c = false) →
        ∀ (network : String → Options → Except CaptionError Caption) (opts : Options),
          DownloadWithContext network s opts = .error .invalidVideoID) ∧
    (∀ s : String, s.length = 11 → (∀ c ∈ s.data, isVideoIDChar c = true) →
        validateVideoID s = none) := by
  constructor
  · intro s hbad network opts
    have hmatch : videoIDMatch s = false := by
      unfold videoIDMatch
      rcases hbad with hlen | ⟨c, hc, hcbad⟩
      · rw [beq_eq_false_iff_ne.2 hlen, Bool.false_and]
      · have hall : s.data.all isVideoIDChar = false := by
          rw [List.all_eq_false]
          exact ⟨c, hc, by rw [hcbad]; simp⟩
        rw [hall, Bool.and_false]
    unfold DownloadWithContext validateVideoID
    by_cases hempty : s = ""
    · rw [if_pos hempty]
    · rw [if_neg hempty, hmatch]
      rw [if_pos (by decide)]
  · intro s hlen hall
    unfold validateVideoID
    have hmatch : videoIDMatch s = true := by
      unfold videoIDMatch
      rw [hlen]
      simp only [beq_self_eq_true, Bool.true_and, List.all_eq_true]
      exact hall
    have hempty : ¬ s = "" := by
      intro h0
      rw [h0] at hlen
      exact absurd hlen (by decide)
    rw [if_neg hempty, hmatch]
    rw [if_neg (by decide)]

/-- Witness for C7: a short identifier is rejected independently of the
network, and a valid 11-character identifier passes validation. -/
theorem c7_witness :
    DownloadWithContext (fun _ _ => .error .noCaptionsFound) "short" DefaultOptions =
      .error .invalidVideoID ∧
    validateVideoID "abcDEF123-_" = none :=
  ⟨c7_video_id_validation.1 "short" (Or.inl (by decide)) _ DefaultOptions,
   c7_video_id_validation.2 "abcDEF123-_" (by decide) (by decide)⟩

/-- C8: the SRT time formatter maps 0.0 to "00:00:00,000" and 3661.234
to "01:01:01,234"; the VTT time formatter maps the same inputs to
"00:00:00.000" and "01:01:01.234". -/
theorem c8_format_time_values :
    formatSRTTime 0 = "00:00:00,000" ∧ formatVTTTime 0 = "00:00:00.000" ∧
    formatSRTTime (3661.234 : ℚ) = "01:01:01,234" ∧
    formatVTTTime (3661.234 : ℚ) = "01:01:01.234" := by
  have h0 : goDurationNs 0 = 0 := by
    unfold goDurationNs
    norm_num
  have h1 : goDurationNs (3661.234 : ℚ) = 3661234000000 := by
    have h2 : (3661.234 : ℚ) * 1000000000 = (3661234000000 : ℚ) := by norm_num
    unfold goDurationNs
    rw [h2]
    norm_num
    decide
  refine ⟨?_, ?_, ?_, ?_⟩
  · simp only [formatSRTTime, h0]
    decide
  · simp only [formatVTTTime, h0]
    decide
  · simp only [formatSRTTime, h1]
    decide
  · simp only [formatVTTTime, h1]
    decide

/-- C9: for every non-negative number of seconds, the VTT time stamp
is the SRT time stamp with its comma turned into a period, and the SRT
time stamp contains exactly one comma (so the two formatters agree on
the hour, minute, second and millisecond fields). -/
theorem c9_vtt_eq_srt_swap (q : ℚ) (_hq : 0 ≤ q) :
    (formatVTTTime q).data = (formatSRTTime q).data.map swapComma ∧
    (formatSRTTime q).data.count ',' = 1 := by
  constructor
  · simp only [formatSRTTime, formatVTTTime, String.data_append, List.map_append]
    rw [map_swapComma_digits _ (pad_isDigit _ _), map_swapComma_digits _ (pad_isDigit _ _),
      map_swapComma_digits _ (pad_isDigit _ _), map_swapComma_digits _ (pad_isDigit _ _)]
    rfl
  · simp only [formatSRTTime, String.data_append, List.count_append]
    rw [count_comma_digits _ (pad_isDigit _ _), count_comma_digits _ (pad_isDigit _ _),
      count_comma_digits _ (pad_isDigit _ _), count_comma_digits _ (pad_isDigit _ _)]
    decide

/-- Witness for C9 at 0 seconds. -/
theorem c9_witness :
    (formatVTTTime 0).data = (formatSRTTime 0).data.map swapComma ∧
    (formatSRTTime 0).data.count ',' = 1 :=
  c9_vtt_eq_srt_swap 0 (le_refl 0)

/-- C10: whenever extraction yields no spans, the SRT formatter
returns the empty string, the VTT formatter returns exactly the
`WEBVTT` header followed by one blank line, and the plain-text
formatter returns the empty string. -/
theorem c10_empty_formats (c : Caption) (h : GetSubtitleText c = []) :
    GetSRT c = "" ∧ GetVTT c = "WEBVTT\n\n" ∧ GetPlainText c = "" := by
  refine ⟨?_, ?_, ?_⟩
  · unfold GetSRT
    rw [h]
    rfl
  · unfold GetVTT
    rw [h]
    exact str_append_nil _
  · unfold GetPlainText
    rw [h]
    rfl

/-- Witness for C10 at the caption with no events. -/
theorem c10_witness :
    GetSRT ⟨[]⟩ = "" ∧ GetVTT ⟨[]⟩ = "WEBVTT\n\n" ∧ GetPlainText ⟨[]⟩ = "" :=
  c10_empty_formats ⟨[]⟩ rfl
